import Mathlib

/-!
Verification development for the halfedge-mesh library.

The development shallowly embeds the connectivity kernel (halfedge mesh with
implicit twin/edge arithmetic), the per-element data containers, the lazily
evaluated geometric-quantity cache, the square linear-solver error checks and
the 3-vector utilities, and proves the behavioural claims about them.

Machine integers (size_t) are modelled as Nat: none of the verified code paths
rely on wrap-around.  Floating point values (double) are modelled as real
numbers where geometry is computed, and as an abstract entry type with a
finiteness predicate where only finiteness checks matter.
-/

namespace GeometryCentral

/-! ## Connectivity kernel: implicit relations

Modelled from the spec: the bodies of HalfedgeMesh::heTwin, HalfedgeMesh::heEdge
and HalfedgeMesh::eHalfedge are declared in halfedge_mesh.h but implemented in
an ipp file that is not part of the provided sources.  The spec states the
implicit relations verbatim: twin(he) = he XOR 1, edge(he) = he / 2,
halfedge(edge) = edge * 2. -/

/-- Modelled from the spec: implicit twin relation, twin(he) = he XOR 1. -/
def heTwin (iHe : Nat) : Nat := iHe ^^^ 1

/-- Modelled from the spec: implicit edge relation, edge(he) = he / 2. -/
def heEdge (iHe : Nat) : Nat := iHe / 2

/-- Modelled from the spec: implicit canonical halfedge of an edge,
halfedge(edge) = edge * 2. -/
def eHalfedge (iE : Nat) : Nat := iE * 2

/-! ## Connectivity kernel: mesh state

The five parallel index arrays of the data model (heNext, heVertex, heFace,
vHalfedge, fHalfedge) are embedded as functions from slot numbers to slot
numbers, together with the element counts tracked by the kernel.  The model
represents a compressed mesh: live halfedges occupy slots
0 .. nHalfedgesCount-1, real faces occupy slots 0 .. nFacesCount-1 and face
slots beyond the real-face range denote boundary loops. -/

structure Mesh where
  heNext : Nat → Nat
  heVertex : Nat → Nat
  heFace : Nat → Nat
  vHalfedge : Nat → Nat
  fHalfedge : Nat → Nat
  nHalfedgesCount : Nat
  nVerticesCount : Nat
  nEdgesCount : Nat
  nFacesCount : Nat
  nBoundaryLoopsCount : Nat

/-- Face slots beyond the real-face range denote boundary loops. -/
def Mesh.faceIsBoundaryLoop (m : Mesh) (iF : Nat) : Bool :=
  decide (m.nFacesCount ≤ iF)

/-- A halfedge is interior when its face is a real face, exterior when its
face is a boundary-loop pseudo-face. -/
def Mesh.heIsInterior (m : Mesh) (iHe : Nat) : Bool :=
  !(m.faceIsBoundaryLoop (m.heFace iHe))

/-- An edge is a boundary edge when either of its halfedges is exterior. -/
def Mesh.edgeIsBoundary (m : Mesh) (iE : Nat) : Bool :=
  !(m.heIsInterior (eHalfedge iE)) || !(m.heIsInterior (heTwin (eHalfedge iE)))

/-- The face containing halfedge h is a triangle precisely when following next
three times returns to h. -/
def Mesh.isTriangleAt (m : Mesh) (h : Nat) : Bool :=
  decide (m.heNext (m.heNext (m.heNext h)) = h)

/-- Pointwise update of an index array, the functional image of a single
array-slot assignment. -/
def updF (f : Nat → Nat) (i v : Nat) : Nat → Nat :=
  fun x => if x = i then v else f x

/-- Iterated application of heNext, used to express reachability inside a
face cycle. -/
def Mesh.nextIter (m : Mesh) (k : Nat) (h : Nat) : Nat :=
  match k with
  | 0 => h
  | k + 1 => m.nextIter k (m.heNext h)

/-- Modelled from the spec: HalfedgeMesh::eulerCharacteristic is declared in
halfedge_mesh.h (an O(1) utility) with its body in an ipp file not part of the
provided sources; the spec defines it by nVertices() - nEdges() + nFaces(). -/
def Mesh.eulerCharacteristic (m : Mesh) : Int :=
  (m.nVerticesCount : Int) - (m.nEdgesCount : Int) + (m.nFacesCount : Int)

/-- Modelled from the spec: the mutating branch of HalfedgeMesh::flip, which
rotates a shared edge between two triangles to the other diagonal.  The
standard in-place halfedge surgery is performed on the diagonal halfedges a1
and its twin b1: no slot is allocated or freed, the six halfedges of the two
incident triangles are re-linked around the rotated diagonal, the diagonal
takes the two apex vertices as its new endpoints, and the face anchors are
reset to the diagonal halfedges. -/
def Mesh.flipCore (m : Mesh) (a1 b1 : Nat) : Mesh :=
  let a2 := m.heNext a1
  let a3 := m.heNext a2
  let b2 := m.heNext b1
  let b3 := m.heNext b2
  let va := m.heVertex a1
  let vb := m.heVertex b1
  let vc := m.heVertex a3
  let vd := m.heVertex b3
  let fa := m.heFace a1
  let fb := m.heFace b1
  let vH1 := if m.vHalfedge va = a1 then updF m.vHalfedge va b2 else m.vHalfedge
  let vH2 := if m.vHalfedge vb = b1 then updF vH1 vb a2 else vH1
  { m with
    heNext :=
      updF (updF (updF (updF (updF (updF m.heNext a1 b3) b3 a2) a2 a1) b1 a3) a3 b2) b2 b1
    heVertex := updF (updF m.heVertex a1 vc) b1 vd
    heFace := updF (updF m.heFace a3 fb) b3 fa
    vHalfedge := vH2
    fHalfedge := updF (updF m.fHalfedge fa a1) fb b1 }

/-- Modelled from the spec: HalfedgeMesh::flip is declared in halfedge_mesh.h
with its body in an ipp file not part of the provided sources.  Per the spec it
fails (returns false with no mutation) if the edge is a boundary edge or either
incident face is not a triangle, and otherwise performs the in-place surgery
above on the two halfedges of the edge. -/
def Mesh.flip (m : Mesh) (e : Nat) : Bool × Mesh :=
  if m.edgeIsBoundary e then (false, m)
  else if !(m.isTriangleAt (eHalfedge e)) || !(m.isTriangleAt (heTwin (eHalfedge e))) then
    (false, m)
  else (true, m.flipCore (eHalfedge e) (heTwin (eHalfedge e)))

/-- Structural well-formedness of the embedded mesh state, the invariants the
data model requires of every valid mesh: twinned halfedges fill pairs of
consecutive slots, next is a permutation of the live halfedges, next stays
within its face, the tail of a twin is the head of its mate, no edge joins a
vertex to itself, and any two halfedges of one face are connected by next. -/
structure Mesh.Valid (m : Mesh) : Prop where
  he_two_edges : m.nHalfedgesCount = 2 * m.nEdgesCount
  next_lt : ∀ h, h < m.nHalfedgesCount → m.heNext h < m.nHalfedgesCount
  next_inj : ∀ h1, h1 < m.nHalfedgesCount → ∀ h2, h2 < m.nHalfedgesCount →
    m.heNext h1 = m.heNext h2 → h1 = h2
  face_next : ∀ h, h < m.nHalfedgesCount → m.heFace (m.heNext h) = m.heFace h
  vertex_twin_next : ∀ h, h < m.nHalfedgesCount →
    m.heVertex (heTwin h) = m.heVertex (m.heNext h)
  no_self_edge : ∀ h, h < m.nHalfedgesCount → m.heVertex (heTwin h) ≠ m.heVertex h
  same_face_reach : ∀ h1, h1 < m.nHalfedgesCount → ∀ h2, h2 < m.nHalfedgesCount →
    m.heFace h1 = m.heFace h2 → ∃ k, k < m.nHalfedgesCount ∧ m.nextIter k h1 = h2

/-- Whether w is a neighbour of v: some live halfedge points away from v and
its twin points away from w. -/
def Mesh.isNeighborOf (m : Mesh) (w v : Nat) : Bool :=
  (List.range m.nHalfedgesCount).any fun h =>
    m.heVertex h == v && m.heVertex (heTwin h) == w

/-- Modelled from the spec: the topological-validity test of
HalfedgeMesh::collapseEdge (whose body is in an ipp file not part of the
provided sources).  Per the spec a collapse is refused when it would create a
non-manifold structure; the model checks the standard link condition for an
interior edge of a triangulated neighbourhood: the edge is interior, both
incident faces are triangles, its endpoints are distinct, and every common
neighbour of the two endpoints is one of the two apex vertices. -/
def Mesh.collapseIsValid (m : Mesh) (e : Nat) : Bool :=
  let a1 := eHalfedge e
  let b1 := heTwin a1
  let va := m.heVertex a1
  let vb := m.heVertex b1
  let vc := m.heVertex (m.heNext (m.heNext a1))
  let vd := m.heVertex (m.heNext (m.heNext b1))
  !(m.edgeIsBoundary e) && m.isTriangleAt a1 && m.isTriangleAt b1 &&
    va != vb &&
    ((List.range m.nVerticesCount).all fun w =>
      !(m.isNeighborOf w va && m.isNeighborOf w vb) || (w == vc || w == vd))

/-- Modelled from the spec: the mutating branch of HalfedgeMesh::collapseEdge.
Per the spec it merges the two endpoints of the edge into one and removes the
degenerate faces that result; for an interior edge between two triangles this
deletes one vertex, three edges (six halfedges) and two faces.  The model
records the endpoint merge in heVertex and the element-count bookkeeping of
the tombstoning deletions; the relinking of the surviving slots is abstracted,
since the claim under verification constrains only the returned handle and the
unchanged-state branch. -/
def Mesh.doCollapse (m : Mesh) (e : Nat) : Mesh :=
  let a1 := eHalfedge e
  let b1 := heTwin a1
  let va := m.heVertex a1
  let vb := m.heVertex b1
  { m with
    heVertex := fun h => if m.heVertex h = vb then va else m.heVertex h
    vHalfedge := updF m.vHalfedge vb (m.vHalfedge va)
    nHalfedgesCount := m.nHalfedgesCount - 6
    nVerticesCount := m.nVerticesCount - 1
    nEdgesCount := m.nEdgesCount - 3
    nFacesCount := m.nFacesCount - 2 }

/-- Modelled from the spec: HalfedgeMesh::collapseEdge returns the surviving
vertex of the merged pair, or a null handle (here: none) when the collapse is
topologically invalid, in which case the mesh is left untouched. -/
def Mesh.collapseEdge (m : Mesh) (e : Nat) : Option Nat × Mesh :=
  if m.collapseIsValid e then
    (some (m.heVertex (eHalfedge e)), m.doCollapse e)
  else (none, m)

/-- Walk of a face cycle: emit halfedges following next until the walk closes
back at the start, bounded by fuel. -/
def Mesh.faceWalk (m : Mesh) (start cur fuel : Nat) : List Nat :=
  match fuel with
  | 0 => []
  | fuel + 1 =>
    cur :: (if m.heNext cur = start then [] else m.faceWalk start (m.heNext cur) fuel)

/-- Halfedges of the cycle of face f, starting at its anchor halfedge. -/
def Mesh.faceHalfedges (m : Mesh) (f : Nat) : List Nat :=
  m.faceWalk (m.fHalfedge f) (m.fHalfedge f) m.nHalfedgesCount

/-- Modelled from the spec: the search step of HalfedgeMesh::connectVertices
and HalfedgeMesh::tryConnectVertices (bodies in an ipp file not part of the
provided sources).  Finds a real face whose cycle contains a halfedge hA with
tail vA and a halfedge hB with tail vB, such that the two vertices are not
already adjacent within that cycle; returns (face, hA, hB), or none when no
shared eligible face exists. -/
def Mesh.findConnectFace (m : Mesh) (vA vB : Nat) : Option (Nat × Nat × Nat) :=
  (List.range m.nFacesCount).findSome? fun f =>
    let cyc := m.faceHalfedges f
    match cyc.find? (fun h => m.heVertex h == vA),
          cyc.find? (fun h => m.heVertex h == vB) with
    | some hA, some hB =>
      if hA != hB && m.heNext hA != hB && m.heNext hB != hA then
        some (f, hA, hB)
      else none
    | _, _ => none

/-- Walk from cur following next, collecting halfedges until (excluding) the
slot reaching stop, bounded by fuel. -/
def Mesh.segWalk (m : Mesh) (cur target fuel : Nat) : List Nat :=
  match fuel with
  | 0 => []
  | fuel + 1 =>
    if cur = target then [] else cur :: m.segWalk (m.heNext cur) target fuel

/-- Modelled from the spec: the mutating branch of connectVertices.  A new
edge (one twinned pair of halfedge slots, filling the next two consecutive
slots) is inserted from vA to vB inside face f, splitting that face in two:
the cycle segment from hA up to hB together with the new twin halfedge forms a
new real face appended to the real-face range (boundary-loop slots shift up by
one to stay at the tail of the face index space), while the remaining segment
together with the new halfedge keeps the label of f.  Returns the new halfedge
with vA at its tail. -/
def Mesh.connectSurgery (m : Mesh) (f hA hB : Nat) : Nat × Mesh :=
  let vA := m.heVertex hA
  let vB := m.heVertex hB
  let hNew := m.nHalfedgesCount
  let hNewT := m.nHalfedgesCount + 1
  let fNew := m.nFacesCount
  let seg := m.segWalk hA hB m.nHalfedgesCount
  (hNew,
  { m with
    heNext := fun h =>
      if h = hNew then hB
      else if h = hNewT then hA
      else if m.heNext h = hA then hNew
      else if m.heNext h = hB then hNewT
      else m.heNext h
    heVertex := fun h =>
      if h = hNew then vA else if h = hNewT then vB else m.heVertex h
    heFace := fun h =>
      if h = hNew then f
      else if h = hNewT then fNew
      else if seg.contains h then fNew
      else if m.nFacesCount ≤ m.heFace h then m.heFace h + 1
      else m.heFace h
    fHalfedge := fun g =>
      if g = f then hB
      else if g = fNew then hNewT
      else if fNew < g then m.fHalfedge (g - 1)
      else m.fHalfedge g
    nHalfedgesCount := m.nHalfedgesCount + 2
    nEdgesCount := m.nEdgesCount + 1
    nFacesCount := m.nFacesCount + 1 })

/-- Modelled from the spec: HalfedgeMesh::tryConnectVertices returns a null
handle (here: none) and leaves the mesh untouched when the vertices share no
eligible face, and otherwise inserts the new edge. -/
def Mesh.tryConnectVertices (m : Mesh) (vA vB : Nat) : Option Nat × Mesh :=
  match m.findConnectFace vA vB with
  | none => (none, m)
  | some (f, hA, hB) =>
    let r := m.connectSurgery f hA hB
    (some r.1, r.2)

/-- Modelled from the spec: HalfedgeMesh::connectVertices raises a fatal error
when the vertices share no eligible face, and otherwise behaves exactly as the
try variant. -/
def Mesh.connectVertices (m : Mesh) (vA vB : Nat) : Except String (Nat × Mesh) :=
  match m.findConnectFace vA vB with
  | none => Except.error "connectVertices: no shared face found"
  | some (f, hA, hB) => Except.ok (m.connectSurgery f hA hB)

/-- Whether an Except value is an error outcome. -/
def isErr {ε α : Type} : Except ε α → Bool
  | Except.error _ => true
  | Except.ok _ => false

/-! ## Per-element data containers

Embedded from the provided container implementations (VertexData and FaceData).
Container storage is a function from vertex slots to values together with the
number of vertices of the parent (compressed) mesh; dense vectors are lists. -/

/-- Sequence of imperative writes into an indexable store: each pair (i, x)
assigns value x to position i, later writes overriding earlier ones. -/
def writeSeq {α : Type} (pairs : List (Nat × α)) (init : Nat → α) : Nat → α :=
  pairs.foldl (fun acc p => fun i => if i = p.1 then p.2 else acc i) init

/-- Per-vertex container: storage for the values at the nVerts live vertex
slots of its parent mesh. -/
structure VertexData (α : Type) where
  nVerts : Nat
  data : Nat → α

/-- Embedded from VertexData::fromVector: if the vector length differs from
nVertices the call raises an error and writes nothing; otherwise each entry is
routed through the canonical index map ind, storing vector(ind v) at vertex v.
The canonical index map getVertexIndices is passed as the parameter ind
(modelled from the spec: its body is not part of the provided sources; the
spec specifies a canonical index assignment per element kind). -/
def VertexData.fromVector {α : Type} (c : VertexData α) (ind : Nat → Nat) (d0 : α)
    (vec : List α) : Except String Unit × VertexData α :=
  if vec.length ≠ c.nVerts then
    (Except.error "Vector size does not match mesh size.", c)
  else
    (Except.ok (),
      ⟨c.nVerts, fun v => if v < c.nVerts then vec.getD (ind v) d0 else c.data v⟩)

/-- Embedded from VertexData::toVector: allocate a dense vector of length
nVertices and write result(ind v) = data v for every live vertex v. -/
def VertexData.toVector {α : Type} (c : VertexData α) (ind : Nat → Nat) (d0 : α) :
    List α :=
  let resultF := writeSeq ((List.range c.nVerts).map fun v => (ind v, c.data v))
    (fun _ => d0)
  (List.range c.nVerts).map resultF

/-- A face handle as seen by a FaceData container: either a real face (with its
face index) or a boundary-loop pseudo-face (with its loop index). -/
structure FacePtr where
  isReal : Bool
  idx : Nat

/-- Per-face container: values for the real faces followed by the values for
the boundary-loop pseudo-faces. -/
structure FaceData (α : Type) where
  realSize : Nat
  data : List α

/-- Embedded from the FaceData constructor: realSize is the number of real
faces and the storage holds realSize + nBoundaryLoops default-initialised
entries. -/
def FaceData.ofMesh {α : Type} (m : Mesh) (d0 : α) : FaceData α :=
  { realSize := m.nFacesCount
    data := List.replicate (m.nFacesCount + m.nBoundaryLoopsCount) d0 }

/-- Embedded from the FaceData subscript: a real face with face index j reads
entry j, a boundary loop with loop index i reads entry realSize + i. -/
def FaceData.get {α : Type} (fd : FaceData α) (d0 : α) (f : FacePtr) : α :=
  if f.isReal then fd.data.getD f.idx d0
  else fd.data.getD (fd.realSize + f.idx) d0

/-! ## Square linear solver error checks

Embedded from SquareSolver<T>::prepare and SquareSolver<T>::solve.  The
template parameter T (float, double or Complex) is modelled by an abstract
entry type with a finiteness predicate; the external factorization and
back-substitution are black boxes whose success outcomes and result are oracle
fields of the solver state, per the spec treating the direct solver as an
external capability. -/

/-- Sparse matrix model: dimensions plus the collection of stored entries. -/
structure SparseMatrixM (α : Type) where
  rows : Nat
  cols : Nat
  entries : List α

/-- Modelled from the spec: checkFinite (declared in a linear-algebra utility
header not part of the provided sources; its tests are) raises a reported
error exactly when some stored entry is non-finite. -/
def checkFinite {α : Type} (finite : α → Bool) (mat : SparseMatrixM α) :
    Except String Unit :=
  if mat.entries.all finite then Except.ok ()
  else Except.error "Matrix has non-finite entries"

/-- Solver state: the matrix plus the oracle outcomes of the external
factorization and solve steps. -/
structure SquareSolver (α : Type) where
  mat : SparseMatrixM α
  factorizationOk : Bool
  solveOk : Bool
  solveResult : List α

/-- Embedded from SquareSolver<T>::prepare: error when the matrix is not
square, then the checkFinite test, then the external factorization which
raises on failure. -/
def SquareSolver.prepare {α : Type} (finite : α → Bool) (s : SquareSolver α) :
    Except String Unit :=
  if s.mat.cols ≠ s.mat.rows then Except.error "Matrix must be square"
  else
    match checkFinite finite s.mat with
    | Except.error msg => Except.error msg
    | Except.ok _ =>
      if s.factorizationOk then Except.ok ()
      else Except.error "Solver factorization failed"

/-- Embedded from SquareSolver<T>::solve: error when the right-hand side does
not have the matrix dimension, then the checkFinite test on the right-hand
side, then the external solve which raises on failure. -/
def SquareSolver.solve {α : Type} (finite : α → Bool) (s : SquareSolver α)
    (rhs : List α) : Except String (List α) :=
  if rhs.length ≠ s.mat.rows then Except.error "Vector is not the right length"
  else if !(rhs.all finite) then Except.error "Vector has non-finite entries"
  else if s.solveOk then Except.ok s.solveResult
  else Except.error "Solve failed"

/-! ## Vector3 and the embedded geometry quantities

Embedded from the Vector3 utilities and from
EmbeddedGeometryInterface::computeFaceNormals.  Double-precision arithmetic is
idealised as real arithmetic. -/

/-- A primitive 3-vector over the reals. -/
@[ext]
structure Vector3 where
  x : ℝ
  y : ℝ
  z : ℝ

instance : Add Vector3 := ⟨fun u v => ⟨u.x + v.x, u.y + v.y, u.z + v.z⟩⟩

instance : Sub Vector3 := ⟨fun u v => ⟨u.x - v.x, u.y - v.y, u.z - v.z⟩⟩

instance : SMul ℝ Vector3 := ⟨fun s v => ⟨s * v.x, s * v.y, s * v.z⟩⟩

/-- Embedded from Vector3::zero. -/
def Vector3.zero : Vector3 := ⟨0, 0, 0⟩

/-- Embedded from dot(u, v). -/
def Vector3.dot (u v : Vector3) : ℝ := u.x * v.x + u.y * v.y + u.z * v.z

/-- Embedded from cross(u, v). -/
def Vector3.cross (u v : Vector3) : Vector3 :=
  ⟨u.y * v.z - u.z * v.y, u.z * v.x - u.x * v.z, u.x * v.y - u.y * v.x⟩

/-- Embedded from norm2(v). -/
def Vector3.norm2 (v : Vector3) : ℝ := v.x * v.x + v.y * v.y + v.z * v.z

noncomputable section

/-- Embedded from norm(v). -/
def Vector3.norm (v : Vector3) : ℝ := Real.sqrt v.norm2

/-- Embedded from unit(v): componentwise division by the norm. -/
def Vector3.unit (v : Vector3) : Vector3 :=
  ⟨v.x / v.norm, v.y / v.norm, v.z / v.norm⟩

/-- The component of v parallel to the axis, the local parallelComp value of
Vector3::rotate_around: axisN * dot(v, axisN). -/
def Vector3.parallelComp (v axis : Vector3) : Vector3 :=
  Vector3.dot v (Vector3.unit axis) • Vector3.unit axis

/-- The tangential component of v with respect to the axis, the local
tangentComp value of Vector3::rotate_around: v - parallelComp. -/
def Vector3.tangentComp (v axis : Vector3) : Vector3 :=
  v - v.parallelComp axis

/-- Embedded from Vector3::rotate_around (vector3.cpp): decompose v into
components parallel and tangential to the axis, rotate the tangential part by
theta in the plane spanned by its direction and cross(axisN, basisX), and
return the unrotated parallel part when the tangential part vanishes. -/
def Vector3.rotate_around (v axis : Vector3) (theta : ℝ) : Vector3 :=
  let axisN := Vector3.unit axis
  let parallelComp := v.parallelComp axis
  let tangentComp := v.tangentComp axis
  if Vector3.norm2 tangentComp > 0 then
    let basisX := Vector3.unit tangentComp
    let basisY := Vector3.cross axisN basisX
    let tangentMag := Vector3.norm tangentComp
    tangentMag • (Real.cos theta • basisX + Real.sin theta • basisY) + parallelComp
  else parallelComp

/-- One corner contribution of computeFaceNormals: the cross product of the
two edge vectors leaving the corner vertex, with the next three vertices read
cyclically from the face cycle. -/
def cornerNormalTerm (pos : Nat → Vector3) (c : List Nat) (k : Nat) : Vector3 :=
  let pA := pos (c.getD (k % c.length) 0)
  let pB := pos (c.getD ((k + 1) % c.length) 0)
  let pC := pos (c.getD ((k + 2) % c.length) 0)
  Vector3.cross (pB - pA) (pC - pA)

/-- Embedded from the per-face loop of computeFaceNormals: for a general
polygon the corner cross products are summed over all corners, while for a
triangle the loop exits after the first corner; the normal is the unit vector
of the sum. -/
def faceNormalOf (pos : Nat → Vector3) (c : List Nat) : Vector3 :=
  Vector3.unit
    (if c.length = 3 then cornerNormalTerm pos c 0
     else (List.range c.length).foldl
       (fun acc k => acc + cornerNormalTerm pos c k) Vector3.zero)

/-- Embedded from EmbeddedGeometryInterface::computeFaceNormals: the face
normals derived from the current vertex positions, one per face. -/
def computeFaceNormals (pos : Nat → Vector3) (faces : List (List Nat)) :
    List Vector3 :=
  faces.map (faceNormalOf pos)

/-- State of the embedded geometry with its face-normal quantity node: the raw
inputs (vertex positions and face cycles), the backing storage of the
face-normal quantity (none when never evaluated) and its require count. -/
structure EmbeddedGeometry where
  vertexPositions : Nat → Vector3
  faceCycles : List (List Nat)
  faceNormals : Option (List Vector3)
  faceNormalsRequireCount : Nat

/-- Modelled from the spec: DependentQuantity::require (the quantity-cache
machinery is not part of the provided sources; the compute thunk is).  The
require count is incremented and, only if the quantity has never been
evaluated, the compute thunk runs against the current inputs and the result is
memoized; an already evaluated quantity is returned as stored. -/
def EmbeddedGeometry.requireFaceNormals (g : EmbeddedGeometry) : EmbeddedGeometry :=
  { g with
    faceNormalsRequireCount := g.faceNormalsRequireCount + 1
    faceNormals :=
      match g.faceNormals with
      | some d => some d
      | none => some (computeFaceNormals g.vertexPositions g.faceCycles) }

/-- A raw write to the vertex positions, bypassing the quantity cache. -/
def EmbeddedGeometry.setVertexPositionsRaw (g : EmbeddedGeometry)
    (p : Nat → Vector3) : EmbeddedGeometry :=
  { g with vertexPositions := p }

/-- Reading the face-normal quantity returns whatever the backing storage
holds. -/
def EmbeddedGeometry.readFaceNormals (g : EmbeddedGeometry) :
    Option (List Vector3) :=
  g.faceNormals

end

/-! ## Concrete demonstration meshes -/

/-- A tetrahedron: 4 vertices, 6 edges, 12 halfedges, 4 triangular faces, no
boundary.  Twinned halfedges occupy consecutive slots (edge k owns halfedges
2k and 2k+1). -/
def tetraMesh : Mesh :=
  { heNext := fun h => [2, 6, 4, 10, 0, 8, 11, 5, 7, 3, 9, 1].getD h 0
    heVertex := fun h => [0, 1, 1, 2, 2, 0, 0, 3, 2, 3, 1, 3].getD h 0
    heFace := fun h => [0, 2, 0, 3, 0, 1, 2, 1, 1, 3, 3, 2].getD h 0
    vHalfedge := fun v => [0, 2, 4, 7].getD v 0
    fHalfedge := fun f => [0, 5, 6, 10].getD f 0
    nHalfedgesCount := 12
    nVerticesCount := 4
    nEdgesCount := 6
    nFacesCount := 4
    nBoundaryLoopsCount := 0 }

/-- A single triangle with its boundary loop: 3 vertices, 3 boundary edges,
6 halfedges, one real face (slot 0) and one boundary-loop pseudo-face
(slot 1). -/
def oneTriMesh : Mesh :=
  { heNext := fun h => [2, 5, 4, 1, 0, 3].getD h 0
    heVertex := fun h => [0, 1, 1, 2, 2, 0].getD h 0
    heFace := fun h => [0, 1, 0, 1, 0, 1].getD h 0
    vHalfedge := fun v => [0, 2, 4].getD v 0
    fHalfedge := fun f => [0, 1].getD f 0
    nHalfedgesCount := 6
    nVerticesCount := 3
    nEdgesCount := 3
    nFacesCount := 1
    nBoundaryLoopsCount := 1 }

/-! ## Lemmas: implicit twin arithmetic and pointwise updates -/

theorem updF_same (f : Nat → Nat) (i v : Nat) : updF f i v i = v := by
  simp [updF]

theorem updF_ne (f : Nat → Nat) (i v x : Nat) (h : x ≠ i) : updF f i v x = f x := by
  simp [updF, h]

theorem heTwin_heTwin (h : Nat) : heTwin (heTwin h) = h :=
  Nat.xor_cancel_right 1 h

theorem heTwin_ne (n : Nat) : heTwin n ≠ n := by
  intro h
  have h2 := congrArg (fun t => t ^^^ n) h
  simp only [heTwin] at h2
  rw [Nat.xor_comm n 1, Nat.xor_assoc, Nat.xor_self, Nat.xor_zero] at h2
  exact one_ne_zero h2

theorem heTwin_two_mul (e : Nat) : heTwin (2 * e) = 2 * e + 1 := by
  apply Nat.eq_of_testBit_eq
  intro i
  cases i with
  | zero =>
    simp [heTwin, Nat.testBit_xor, Nat.testBit_zero, Nat.mul_add_mod]
  | succ j =>
    have h1 : (1 : Nat).testBit (j + 1) = false := by
      rw [Nat.testBit_succ]
      simp
    have h2 : (2 * e).testBit (j + 1) = e.testBit j := by
      rw [Nat.testBit_succ]
      congr 1
      omega
    have h3 : (2 * e + 1).testBit (j + 1) = e.testBit j := by
      rw [Nat.testBit_succ]
      congr 1
      omega
    rw [heTwin, Nat.testBit_xor, h1, h2, h3, Bool.xor_false]

theorem heTwin_eHalfedge (e : Nat) : heTwin (eHalfedge e) = eHalfedge e + 1 := by
  have := heTwin_two_mul e
  simpa [eHalfedge, Nat.mul_comm] using this

/-! ## C5 -/

/-- C5: the implicit (unstored) connectivity relations hold for every halfedge
slot he and edge slot e: twin is the involution he XOR 1 without fixed points,
edge(he) = he / 2, halfedge(edge) = edge * 2, edge(halfedge(e)) = e, and the
two halfedges of edge e are the consecutive slots 2e and 2e + 1. -/
theorem implicit_connectivity_relations (he e : Nat) :
    heTwin (heTwin he) = he ∧
    heTwin he ≠ he ∧
    heEdge he = he / 2 ∧
    eHalfedge e = e * 2 ∧
    heEdge (eHalfedge e) = e ∧
    heTwin (eHalfedge e) = eHalfedge e + 1 ∧
    heEdge (eHalfedge e + 1) = e := by
  refine ⟨heTwin_heTwin he, heTwin_ne he, rfl, rfl, ?_, heTwin_eHalfedge e, ?_⟩
  · simp only [heEdge, eHalfedge]
    omega
  · simp only [heEdge, eHalfedge]
    omega

/-! ## C4 -/

theorem flip_counts (m : Mesh) (e : Nat) :
    ((m.flip e).2).nHalfedgesCount = m.nHalfedgesCount ∧
    ((m.flip e).2).nVerticesCount = m.nVerticesCount ∧
    ((m.flip e).2).nEdgesCount = m.nEdgesCount ∧
    ((m.flip e).2).nFacesCount = m.nFacesCount ∧
    ((m.flip e).2).nBoundaryLoopsCount = m.nBoundaryLoopsCount := by
  unfold Mesh.flip
  split
  · exact ⟨rfl, rfl, rfl, rfl, rfl⟩
  split
  · exact ⟨rfl, rfl, rfl, rfl, rfl⟩
  · exact ⟨rfl, rfl, rfl, rfl, rfl⟩

/-- C4: for every mesh state, nVertices - nEdges + nFaces equals the value of
eulerCharacteristic; in particular the identity still holds after applying
mutation operators, of which flip and tryConnectVertices moreover leave the
Euler characteristic itself unchanged. -/
theorem euler_characteristic_identity (m : Mesh) :
    ((m.nVerticesCount : Int) - (m.nEdgesCount : Int) + (m.nFacesCount : Int) =
      m.eulerCharacteristic) ∧
    (∀ e, ((m.flip e).2).eulerCharacteristic = m.eulerCharacteristic) ∧
    (∀ vA vB, ((m.tryConnectVertices vA vB).2).eulerCharacteristic =
      m.eulerCharacteristic) := by
  refine ⟨rfl, ?_, ?_⟩
  · intro e
    have h := flip_counts m e
    simp [Mesh.eulerCharacteristic, h.1, h.2.1, h.2.2.1, h.2.2.2.1]
  · intro vA vB
    unfold Mesh.tryConnectVertices
    cases hf : m.findConnectFace vA vB with
    | none => rfl
    | some r =>
      obtain ⟨f, hA, hB⟩ := r
      simp only [Mesh.connectSurgery, Mesh.eulerCharacteristic]
      push_cast
      ring

/-! ## C9 -/

/-- C9: a FaceData container constructed against a mesh allocates exactly
nFaces + nBoundaryLoops entries, and indexing it is valid for boundary-loop
pseudo-faces: a real face with face index j reads entry j and a boundary loop
with loop index i reads entry realSize + i, both within bounds. -/
theorem faceData_layout {α : Type} (m : Mesh) (d0 : α) (j i : Nat)
    (hj : j < m.nFacesCount) (hi : i < m.nBoundaryLoopsCount) :
    (FaceData.ofMesh m d0).data.length = m.nFacesCount + m.nBoundaryLoopsCount ∧
    j < (FaceData.ofMesh m d0).data.length ∧
    (FaceData.ofMesh m d0).realSize + i < (FaceData.ofMesh m d0).data.length ∧
    (FaceData.ofMesh m d0).get d0 ⟨true, j⟩ =
      (FaceData.ofMesh m d0).data.getD j d0 ∧
    (FaceData.ofMesh m d0).get d0 ⟨false, i⟩ =
      (FaceData.ofMesh m d0).data.getD ((FaceData.ofMesh m d0).realSize + i) d0 := by
  refine ⟨?_, ?_, ?_, rfl, rfl⟩
  · simp [FaceData.ofMesh]
  · simp [FaceData.ofMesh]
    omega
  · simp [FaceData.ofMesh]
    omega

/-- Witness for C9 at a concrete mesh with one real face and one boundary
loop. -/
theorem faceData_layout_witness :
    (FaceData.ofMesh oneTriMesh (0 : Nat)).data.length =
      oneTriMesh.nFacesCount + oneTriMesh.nBoundaryLoopsCount ∧
    0 < (FaceData.ofMesh oneTriMesh (0 : Nat)).data.length ∧
    (FaceData.ofMesh oneTriMesh (0 : Nat)).realSize + 0 <
      (FaceData.ofMesh oneTriMesh (0 : Nat)).data.length ∧
    (FaceData.ofMesh oneTriMesh (0 : Nat)).get 0 ⟨true, 0⟩ =
      (FaceData.ofMesh oneTriMesh (0 : Nat)).data.getD 0 0 ∧
    (FaceData.ofMesh oneTriMesh (0 : Nat)).get 0 ⟨false, 0⟩ =
      (FaceData.ofMesh oneTriMesh (0 : Nat)).data.getD
        ((FaceData.ofMesh oneTriMesh (0 : Nat)).realSize + 0) 0 :=
  faceData_layout oneTriMesh 0 0 0 (by decide) (by decide)

/-! ## C8 -/

/-- C8: for every entry type with its finiteness predicate (float, double and
Complex instantiate it), SquareSolver::prepare raises an error when the matrix
is not square, when some entry is non-finite, or when the external
factorization fails, and SquareSolver::solve raises an error when the
right-hand side length differs from the matrix dimension or when the external
solve fails; no branch silently returns a value on such inputs. -/
theorem squareSolver_error_checks {α : Type} (finite : α → Bool)
    (s : SquareSolver α) (rhs : List α) :
    (s.mat.cols ≠ s.mat.rows → isErr (SquareSolver.prepare finite s) = true) ∧
    ((∃ x ∈ s.mat.entries, finite x = false) →
      isErr (SquareSolver.prepare finite s) = true) ∧
    (s.factorizationOk = false → isErr (SquareSolver.prepare finite s) = true) ∧
    (rhs.length ≠ s.mat.rows → isErr (SquareSolver.solve finite s rhs) = true) ∧
    (s.solveOk = false → isErr (SquareSolver.solve finite s rhs) = true) := by
  refine ⟨?_, ?_, ?_, ?_, ?_⟩
  · intro h
    simp [SquareSolver.prepare, h, isErr]
  · intro h
    have hall : s.mat.entries.all finite = false := by
      rcases h with ⟨x, hx, hfx⟩
      rw [List.all_eq_false]
      exact ⟨x, hx, by simp [hfx]⟩
    unfold SquareSolver.prepare checkFinite
    split
    · simp [isErr]
    · rw [hall]
      simp [isErr]
  · intro h
    unfold SquareSolver.prepare checkFinite
    split
    · simp [isErr]
    · split
      · simp [isErr]
      · rw [h]
        simp [isErr]
  · intro h
    simp [SquareSolver.solve, h, isErr]
  · intro h
    unfold SquareSolver.solve
    rw [h]
    split
    · simp [isErr]
    · split
      · simp [isErr]
      · simp [isErr]

/-- Witness for C8 at a concrete non-square 1 by 2 solver state. -/
theorem squareSolver_error_checks_witness :
    isErr (SquareSolver.prepare (fun _ : Unit => true)
      ⟨⟨1, 2, []⟩, true, true, []⟩) = true :=
  (squareSolver_error_checks (fun _ : Unit => true)
    ⟨⟨1, 2, []⟩, true, true, []⟩ []).1 (by decide)

/-! ## C2 -/

/-- C2: collapseEdge returns a null handle (none) and leaves the mesh
unchanged, in particular all element counts unchanged, whenever the collapse
is topologically invalid; otherwise it returns the surviving vertex of the
merged pair (the tail of the canonical halfedge of the collapsed edge). -/
theorem collapseEdge_contract (m : Mesh) (e : Nat) :
    (m.collapseIsValid e = false →
      (m.collapseEdge e).1 = none ∧
      (m.collapseEdge e).2 = m ∧
      (m.collapseEdge e).2.nHalfedgesCount = m.nHalfedgesCount ∧
      (m.collapseEdge e).2.nVerticesCount = m.nVerticesCount ∧
      (m.collapseEdge e).2.nEdgesCount = m.nEdgesCount ∧
      (m.collapseEdge e).2.nFacesCount = m.nFacesCount ∧
      (m.collapseEdge e).2.nBoundaryLoopsCount = m.nBoundaryLoopsCount) ∧
    (m.collapseIsValid e = true →
      (m.collapseEdge e).1 = some (m.heVertex (eHalfedge e))) := by
  constructor
  · intro h
    simp [Mesh.collapseEdge, h]
  · intro h
    simp [Mesh.collapseEdge, h]

/-- Witness for C2: in the one-triangle mesh, edge 0 is a boundary edge, so
its collapse is topologically invalid in the model; collapseEdge returns none
and the mesh is untouched. -/
theorem collapseEdge_contract_witness :
    (oneTriMesh.collapseEdge 0).1 = none ∧ (oneTriMesh.collapseEdge 0).2 = oneTriMesh := by
  have h := (collapseEdge_contract oneTriMesh 0).1 (by decide)
  exact ⟨h.1, h.2.1⟩

/-! ## C6 -/

theorem findConnectFace_sound (m : Mesh) (vA vB f hA hB : Nat)
    (h : m.findConnectFace vA vB = some (f, hA, hB)) :
    m.heVertex hA = vA ∧ m.heVertex hB = vB ∧ hA ≠ hB ∧
    m.heNext hA ≠ hB ∧ m.heNext hB ≠ hA ∧ f < m.nFacesCount := by
  unfold Mesh.findConnectFace at h
  rcases List.exists_of_findSome?_eq_some h with ⟨f1, hf1, hinner⟩
  dsimp only at hinner
  cases hA1 : (m.faceHalfedges f1).find? (fun h => m.heVertex h == vA) with
  | none => rw [hA1] at hinner; simp at hinner
  | some hAx =>
    cases hB1 : (m.faceHalfedges f1).find? (fun h => m.heVertex h == vB) with
    | none => rw [hA1, hB1] at hinner; simp at hinner
    | some hBx =>
      rw [hA1, hB1] at hinner
      dsimp only at hinner
      have pA := List.find?_some hA1
      have pB := List.find?_some hB1
      simp only [beq_iff_eq] at pA pB
      by_cases hc : (hAx != hBx && m.heNext hAx != hBx && m.heNext hBx != hAx) = true
      · rw [if_pos hc] at hinner
        have h1 : f1 = f ∧ hAx = hA ∧ hBx = hB := by
          have := Option.some.inj hinner
          exact ⟨congrArg Prod.fst this,
            congrArg Prod.fst (congrArg Prod.snd this),
            congrArg Prod.snd (congrArg Prod.snd this)⟩
        obtain ⟨hq1, hq2, hq3⟩ := h1
        subst hq1; subst hq2; subst hq3
        simp only [bne_iff_ne, Bool.and_eq_true] at hc
        exact ⟨pA, pB, hc.1.1, hc.1.2, hc.2, List.mem_range.mp hf1⟩
      · rw [if_neg hc] at hinner
        simp at hinner

/-- C6: when no shared eligible face exists, tryConnectVertices returns a null
halfedge handle (none) with the mesh untouched while connectVertices raises an
error; when an eligible shared face exists, both return the same new halfedge:
it is the next free twinned slot, its tail vertex is vA, its next is the
halfedge at vB and the next of its twin is the halfedge at vA, and the shared face
has been split in two (one more face and one more edge). -/
theorem connectVertices_contract (m : Mesh) (vA vB : Nat) :
    (m.findConnectFace vA vB = none →
      m.tryConnectVertices vA vB = (none, m) ∧
      isErr (m.connectVertices vA vB) = true) ∧
    (∀ f hA hB, m.findConnectFace vA vB = some (f, hA, hB) →
      (m.tryConnectVertices vA vB).1 = some m.nHalfedgesCount ∧
      m.connectVertices vA vB = Except.ok (m.connectSurgery f hA hB) ∧
      (m.tryConnectVertices vA vB).2 = (m.connectSurgery f hA hB).2 ∧
      ((m.tryConnectVertices vA vB).2).heVertex m.nHalfedgesCount = vA ∧
      ((m.tryConnectVertices vA vB).2).heVertex (m.nHalfedgesCount + 1) = vB ∧
      ((m.tryConnectVertices vA vB).2).heNext m.nHalfedgesCount = hB ∧
      ((m.tryConnectVertices vA vB).2).heNext (m.nHalfedgesCount + 1) = hA ∧
      ((m.tryConnectVertices vA vB).2).nFacesCount = m.nFacesCount + 1 ∧
      ((m.tryConnectVertices vA vB).2).nEdgesCount = m.nEdgesCount + 1 ∧
      ((m.tryConnectVertices vA vB).2).nHalfedgesCount = m.nHalfedgesCount + 2) := by
  constructor
  · intro h
    constructor
    · simp [Mesh.tryConnectVertices, h]
    · simp [Mesh.connectVertices, h, isErr]
  · intro f hA hB h
    obtain ⟨hvA, hvB, _, _, _, _⟩ := findConnectFace_sound m vA vB f hA hB h
    refine ⟨?_, ?_, ?_, ?_, ?_, ?_, ?_, ?_, ?_, ?_⟩
    · simp [Mesh.tryConnectVertices, h, Mesh.connectSurgery]
    · simp [Mesh.connectVertices, h]
    · simp [Mesh.tryConnectVertices, h]
    · simp [Mesh.tryConnectVertices, h, Mesh.connectSurgery, hvA]
    · simp [Mesh.tryConnectVertices, h, Mesh.connectSurgery, hvB]
    · simp [Mesh.tryConnectVertices, h, Mesh.connectSurgery]
    · simp [Mesh.tryConnectVertices, h, Mesh.connectSurgery]
    · simp [Mesh.tryConnectVertices, h, Mesh.connectSurgery]
    · simp [Mesh.tryConnectVertices, h, Mesh.connectSurgery]
    · simp [Mesh.tryConnectVertices, h, Mesh.connectSurgery]

/-- Witness for C6: in the one-triangle mesh, vertices 0 and 1 are adjacent in
the only face, so no eligible shared face exists; the try variant returns a
null handle with the mesh untouched and the plain variant errors. -/
theorem connectVertices_contract_witness :
    oneTriMesh.tryConnectVertices 0 1 = (none, oneTriMesh) ∧
    isErr (oneTriMesh.connectVertices 0 1) = true :=
  (connectVertices_contract oneTriMesh 0 1).1 (by decide)

/-! ## C7 -/

theorem writeSeq_not_key {α : Type} (ps : List (Nat × α)) (init : Nat → α) (i : Nat)
    (h : ∀ p ∈ ps, p.1 ≠ i) : writeSeq ps init i = init i := by
  induction ps generalizing init with
  | nil => rfl
  | cons p t ih =>
    have hp : p.1 ≠ i := h p (List.mem_cons_self p t)
    have ht : ∀ q ∈ t, q.1 ≠ i := fun q hq => h q (List.mem_cons_of_mem p hq)
    show writeSeq t (fun j => if j = p.1 then p.2 else init j) i = init i
    rw [ih _ ht]
    exact if_neg fun hh => hp hh.symm

theorem writeSeq_map_get {α : Type} (l : List Nat) (f : Nat → Nat) (g : Nat → α)
    (init : Nat → α) (v : Nat) (hv : v ∈ l)
    (hinj : ∀ w ∈ l, f w = f v → w = v) :
    writeSeq (l.map fun w => (f w, g w)) init (f v) = g v := by
  induction l generalizing init with
  | nil => cases hv
  | cons w t ih =>
    show writeSeq (t.map fun w => (f w, g w))
      (fun j => if j = f w then g w else init j) (f v) = g v
    by_cases hvt : v ∈ t
    · exact ih _ hvt (fun q hq hfq => hinj q (List.mem_cons_of_mem w hq) hfq)
    · have hvw : v = w := by
        rcases List.mem_cons.mp hv with h1 | h2
        · exact h1
        · exact absurd h2 hvt
      subst hvw
      have hnk : ∀ p ∈ t.map fun w => (f w, g w), p.1 ≠ f v := by
        intro p hp
        rcases List.mem_map.mp hp with ⟨w1, hw1, hw2⟩
        intro hk
        rw [← hw2] at hk
        exact hvt (hinj w1 (List.mem_cons_of_mem v hw1) hk ▸ hw1)
      rw [writeSeq_not_key _ _ _ hnk]
      simp

/-- C7: loading a vector of matching length with fromVector succeeds, and
toVector then returns exactly that vector (the round trip is the identity,
each entry routed through the canonical vertex index map, assumed to be a
bijection between the live vertex slots and 0 .. nVertices-1); a vector whose
length differs from nVertices makes fromVector raise an error and write
nothing. -/
theorem toVector_fromVector_roundTrip {α : Type} (c : VertexData α)
    (ind : Nat → Nat) (d0 : α) (vec : List α)
    (hinj : ∀ v w, v < c.nVerts → w < c.nVerts → ind v = ind w → v = w)
    (hsurj : ∀ i, i < c.nVerts → ∃ v, v < c.nVerts ∧ ind v = i)
    (hlen : vec.length = c.nVerts) :
    (c.fromVector ind d0 vec).1 = Except.ok () ∧
    ((c.fromVector ind d0 vec).2).toVector ind d0 = vec ∧
    (∀ vec2 : List α, vec2.length ≠ c.nVerts →
      isErr (c.fromVector ind d0 vec2).1 = true ∧
      (c.fromVector ind d0 vec2).2 = c) := by
  have hnosize : ¬(vec.length ≠ c.nVerts) := by simp [hlen]
  refine ⟨?_, ?_, ?_⟩
  · simp [VertexData.fromVector, hnosize]
  · have hc2 : (c.fromVector ind d0 vec).2 =
        ⟨c.nVerts, fun v => if v < c.nVerts then vec.getD (ind v) d0 else c.data v⟩ := by
      simp [VertexData.fromVector, hnosize]
    rw [hc2]
    unfold VertexData.toVector
    dsimp only
    apply List.ext_getElem
    · simpa using hlen.symm
    · intro i h1 h2
      have hi : i < c.nVerts := by simpa using h1
      rw [List.getElem_map, List.getElem_range]
      rcases hsurj i hi with ⟨v, hvlt, hvi⟩
      subst hvi
      have hmem : v ∈ List.range c.nVerts := List.mem_range.mpr hvlt
      have hinj2 : ∀ w ∈ List.range c.nVerts,
          ind w = ind v → w = v := by
        intro w hw hfw
        exact hinj w v (List.mem_range.mp hw) hvlt hfw
      rw [writeSeq_map_get (List.range c.nVerts) ind
        (fun v => if v < c.nVerts then vec.getD (ind v) d0 else c.data v)
        (fun _ => d0) v hmem hinj2]
      rw [if_pos hvlt, List.getD_eq_getElem vec d0 h2]
  · intro vec2 hbad
    constructor
    · simp [VertexData.fromVector, hbad, isErr]
    · simp [VertexData.fromVector, hbad]

/-- Witness for C7 at a concrete two-vertex container with the identity index
map and the vector [5, 7]. -/
theorem toVector_fromVector_roundTrip_witness :
    ((VertexData.mk 2 (fun _ => 0)).fromVector (fun v => v) 0 [5, 7]).1 =
      Except.ok () ∧
    (((VertexData.mk 2 (fun _ => 0)).fromVector (fun v => v) 0 [5, 7]).2).toVector
      (fun v => v) 0 = [5, 7] := by
  have h := toVector_fromVector_roundTrip (VertexData.mk 2 (fun _ => 0))
    (fun v => v) 0 [5, 7]
    (fun v w _ _ hvw => hvw)
    (fun i hi => ⟨i, hi, rfl⟩)
    (by rfl)
  exact ⟨h.1, h.2.1⟩

/-! ## C3 -/

/-- C3: after face normals have been required (evaluated), a raw write to the
vertex positions that bypasses the cache leaves the cached storage unchanged,
and re-reading the face normals yields exactly the values computed from the
pre-mutation positions; the cache never auto-invalidates on raw input
writes. -/
theorem faceNormals_cache_stale (g : EmbeddedGeometry) (p2 : Nat → Vector3)
    (hfresh : g.faceNormals = none) :
    ((g.requireFaceNormals).setVertexPositionsRaw p2).readFaceNormals =
      some (computeFaceNormals g.vertexPositions g.faceCycles) ∧
    ((g.requireFaceNormals).setVertexPositionsRaw p2).faceNormals =
      (g.requireFaceNormals).faceNormals ∧
    ((g.requireFaceNormals).setVertexPositionsRaw p2).vertexPositions = p2 := by
  refine ⟨?_, rfl, rfl⟩
  simp [EmbeddedGeometry.requireFaceNormals, EmbeddedGeometry.setVertexPositionsRaw,
    EmbeddedGeometry.readFaceNormals, hfresh]

/-- Witness for C3 at a concrete one-triangle geometry whose positions are
overwritten after the face normals were required. -/
theorem faceNormals_cache_stale_witness :
    (((EmbeddedGeometry.mk (fun _ => Vector3.zero) [[0, 1, 2]] none
        0).requireFaceNormals).setVertexPositionsRaw
      (fun _ => Vector3.mk 1 2 3)).readFaceNormals =
      some (computeFaceNormals (fun _ => Vector3.zero) [[0, 1, 2]]) :=
  (faceNormals_cache_stale
    (EmbeddedGeometry.mk (fun _ => Vector3.zero) [[0, 1, 2]] none 0)
    (fun _ => Vector3.mk 1 2 3) rfl).1

/-! ## C10 -/

@[simp]
theorem Vector3.add_x (u v : Vector3) : (u + v).x = u.x + v.x := rfl

@[simp]
theorem Vector3.add_y (u v : Vector3) : (u + v).y = u.y + v.y := rfl

@[simp]
theorem Vector3.add_z (u v : Vector3) : (u + v).z = u.z + v.z := rfl

@[simp]
theorem Vector3.sub_x (u v : Vector3) : (u - v).x = u.x - v.x := rfl

@[simp]
theorem Vector3.sub_y (u v : Vector3) : (u - v).y = u.y - v.y := rfl

@[simp]
theorem Vector3.sub_z (u v : Vector3) : (u - v).z = u.z - v.z := rfl

@[simp]
theorem Vector3.smul_x (s : ℝ) (v : Vector3) : (s • v).x = s * v.x := rfl

@[simp]
theorem Vector3.smul_y (s : ℝ) (v : Vector3) : (s • v).y = s * v.y := rfl

@[simp]
theorem Vector3.smul_z (s : ℝ) (v : Vector3) : (s • v).z = s * v.z := rfl

theorem Vector3.dot_add_left (u v w : Vector3) :
    Vector3.dot (u + v) w = Vector3.dot u w + Vector3.dot v w := by
  simp [Vector3.dot]
  ring

theorem Vector3.dot_sub_left (u v w : Vector3) :
    Vector3.dot (u - v) w = Vector3.dot u w - Vector3.dot v w := by
  simp [Vector3.dot]
  ring

theorem Vector3.dot_smul_left (s : ℝ) (u w : Vector3) :
    Vector3.dot (s • u) w = s * Vector3.dot u w := by
  simp [Vector3.dot]
  ring

theorem Vector3.dot_cross_self (u w : Vector3) :
    Vector3.dot (Vector3.cross u w) u = 0 := by
  simp [Vector3.dot, Vector3.cross]
  ring

theorem Vector3.dot_unit_left (t a : Vector3) :
    Vector3.dot (Vector3.unit t) a = Vector3.dot t a / Vector3.norm t := by
  simp [Vector3.unit, Vector3.dot]
  ring

theorem Vector3.unit_dot_self (a : Vector3) (h : Vector3.norm2 a > 0) :
    Vector3.dot (Vector3.unit a) (Vector3.unit a) = 1 := by
  have hs : Vector3.norm a * Vector3.norm a = Vector3.norm2 a :=
    Real.mul_self_sqrt (le_of_lt h)
  have hne : Vector3.norm a ≠ 0 := by
    have : (0 : ℝ) < Vector3.norm a := Real.sqrt_pos.mpr h
    exact ne_of_gt this
  simp only [Vector3.unit, Vector3.dot]
  field_simp
  rw [hs]
  simp [Vector3.norm2]

/-- C10: rotate_around preserves the component of v parallel to an axis of
nonzero norm; in particular, when the tangential component of v is zero (v is
parallel to the axis) the result is the parallel component itself, so the
vector is returned unchanged, for every angle. -/
theorem rotate_around_parallel (v axis : Vector3) (theta : ℝ)
    (haxis : Vector3.norm2 axis > 0) :
    (Vector3.rotate_around v axis theta).parallelComp axis = v.parallelComp axis ∧
    (v.tangentComp axis = Vector3.zero →
      Vector3.rotate_around v axis theta = v.parallelComp axis ∧
      Vector3.rotate_around v axis theta = v) := by
  have hdotu : Vector3.dot (Vector3.unit axis) (Vector3.unit axis) = 1 :=
    Vector3.unit_dot_self axis haxis
  have hpar : ∀ w : Vector3,
      Vector3.dot (w.parallelComp axis) (Vector3.unit axis) =
        Vector3.dot w (Vector3.unit axis) := by
    intro w
    rw [Vector3.parallelComp, Vector3.dot_smul_left, hdotu, mul_one]
  have htan : Vector3.dot (v.tangentComp axis) (Vector3.unit axis) = 0 := by
    rw [Vector3.tangentComp, Vector3.dot_sub_left, hpar, sub_self]
  have hkey : Vector3.dot (Vector3.rotate_around v axis theta) (Vector3.unit axis) =
      Vector3.dot v (Vector3.unit axis) := by
    rw [Vector3.rotate_around]
    split_ifs with hpos
    · rw [Vector3.dot_add_left, Vector3.dot_smul_left, Vector3.dot_add_left,
        Vector3.dot_smul_left, Vector3.dot_smul_left, Vector3.dot_unit_left,
        htan, zero_div, Vector3.dot_cross_self, hpar]
      ring
    · exact hpar v
  constructor
  · rw [Vector3.parallelComp, Vector3.parallelComp, hkey]
  · intro h0
    have hn2 : Vector3.norm2 (v.tangentComp axis) = 0 := by
      rw [h0]
      simp [Vector3.norm2, Vector3.zero]
    have hnpos : ¬(Vector3.norm2 (v.tangentComp axis) > 0) := by
      rw [hn2]
      exact lt_irrefl 0
    have hr : Vector3.rotate_around v axis theta = v.parallelComp axis := by
      rw [Vector3.rotate_around]
      exact if_neg hnpos
    have hv : v.parallelComp axis = v := by
      have hsub : v - v.parallelComp axis = Vector3.zero := by
        rw [← Vector3.tangentComp]
        exact h0
      have hx := congrArg Vector3.x hsub
      have hy := congrArg Vector3.y hsub
      have hz := congrArg Vector3.z hsub
      simp only [Vector3.sub_x, Vector3.sub_y, Vector3.sub_z, Vector3.zero] at hx hy hz
      apply Vector3.ext
      · linarith
      · linarith
      · linarith
    exact ⟨hr, hr.trans hv⟩

/-- Witness for C10 at the axis (0,0,1), the vector (1,0,0) and angle 0. -/
theorem rotate_around_parallel_witness :
    (Vector3.rotate_around (Vector3.mk 1 0 0) (Vector3.mk 0 0 1) 0).parallelComp
      (Vector3.mk 0 0 1) = (Vector3.mk 1 0 0).parallelComp (Vector3.mk 0 0 1) :=
  (rotate_around_parallel (Vector3.mk 1 0 0) (Vector3.mk 0 0 1) 0
    (by norm_num [Vector3.norm2])).1

/-! ## C1: auxiliary lemmas -/

theorem valid_next_ne_self (m : Mesh) (hV : m.Valid) :
    ∀ h, h < m.nHalfedgesCount → m.heNext h ≠ h := by
  intro h hh hcontra
  have hvt := hV.vertex_twin_next h hh
  rw [hcontra] at hvt
  exact hV.no_self_edge h hh hvt

theorem nextIter_back_mem (m : Mesh)
    (hlt : ∀ h, h < m.nHalfedgesCount → m.heNext h < m.nHalfedgesCount)
    (hinj : ∀ h1, h1 < m.nHalfedgesCount → ∀ h2, h2 < m.nHalfedgesCount →
      m.heNext h1 = m.heNext h2 → h1 = h2)
    (x1 x2 x3 : Nat) (hx1 : x1 < m.nHalfedgesCount) (hx2 : x2 < m.nHalfedgesCount)
    (hx3 : x3 < m.nHalfedgesCount)
    (h12 : m.heNext x1 = x2) (h23 : m.heNext x2 = x3) (h31 : m.heNext x3 = x1) :
    ∀ k h, h < m.nHalfedgesCount →
      (m.nextIter k h = x1 ∨ m.nextIter k h = x2 ∨ m.nextIter k h = x3) →
      (h = x1 ∨ h = x2 ∨ h = x3) := by
  intro k
  induction k with
  | zero =>
    intro h _ hmem
    simpa [Mesh.nextIter] using hmem
  | succ n ih =>
    intro h hh hmem
    have hmem2 : m.nextIter n (m.heNext h) = x1 ∨ m.nextIter n (m.heNext h) = x2 ∨
        m.nextIter n (m.heNext h) = x3 := by
      simpa [Mesh.nextIter] using hmem
    have hnx := ih (m.heNext h) (hlt h hh) hmem2
    rcases hnx with h1 | h2 | h3
    · exact Or.inr (Or.inr (hinj h hh x3 hx3 (h1.trans h31.symm)))
    · exact Or.inl (hinj h hh x1 hx1 (h2.trans h12.symm))
    · exact Or.inr (Or.inl (hinj h hh x2 hx2 (h3.trans h23.symm)))

theorem face_ne_of_outside_triple (m : Mesh) (hV : m.Valid) (x1 x2 x3 h : Nat)
    (hx1 : x1 < m.nHalfedgesCount) (hx2 : x2 < m.nHalfedgesCount)
    (hx3 : x3 < m.nHalfedgesCount) (hh : h < m.nHalfedgesCount)
    (h12 : m.heNext x1 = x2) (h23 : m.heNext x2 = x3) (h31 : m.heNext x3 = x1)
    (hne1 : h ≠ x1) (hne2 : h ≠ x2) (hne3 : h ≠ x3) :
    m.heFace h ≠ m.heFace x1 := by
  intro hf
  rcases hV.same_face_reach h hh x1 hx1 hf with ⟨k, _, hiter⟩
  rcases nextIter_back_mem m hV.next_lt hV.next_inj x1 x2 x3 hx1 hx2 hx3 h12 h23 h31
      k h hh (Or.inl hiter) with h1 | h2 | h3
  exacts [hne1 h1, hne2 h2, hne3 h3]

theorem heTwin_swap (a1 h : Nat) :
    heTwin (Equiv.swap a1 (heTwin a1) h) = Equiv.swap a1 (heTwin a1) (heTwin h) := by
  by_cases h1 : h = a1
  · subst h1
    rw [Equiv.swap_apply_left, heTwin_heTwin, Equiv.swap_apply_right]
  · by_cases h2 : h = heTwin a1
    · subst h2
      rw [Equiv.swap_apply_right, heTwin_heTwin, Equiv.swap_apply_left]
    · rw [Equiv.swap_apply_of_ne_of_ne h1 h2,
        Equiv.swap_apply_of_ne_of_ne
          (fun hx => h2 (by rw [← hx, heTwin_heTwin]))
          (fun hx => h1 (by
            have := congrArg heTwin hx
            rwa [heTwin_heTwin, heTwin_heTwin] at this))]

theorem flipCore_roundTrip (m : Mesh) (hV : m.Valid) (a1 b1 a2 a3 b2 b3 : Nat)
    (ha1lt : a1 < m.nHalfedgesCount) (hb1lt : b1 < m.nHalfedgesCount)
    (htw : heTwin a1 = b1) (htw2 : heTwin b1 = a1)
    (ha2 : m.heNext a1 = a2) (ha3 : m.heNext a2 = a3) (hA : m.heNext a3 = a1)
    (hb2 : m.heNext b1 = b2) (hb3 : m.heNext b2 = b3) (hB : m.heNext b3 = b1) :
    ((m.flipCore a1 b1).heNext a1 = b3 ∧
     (m.flipCore a1 b1).heNext b3 = a2 ∧
     (m.flipCore a1 b1).heNext a2 = a1 ∧
     (m.flipCore a1 b1).heNext b1 = a3 ∧
     (m.flipCore a1 b1).heNext a3 = b2 ∧
     (m.flipCore a1 b1).heNext b2 = b1 ∧
     (m.flipCore a1 b1).heFace a1 = m.heFace a1 ∧
     (m.flipCore a1 b1).heFace b1 = m.heFace b1) ∧
    (∀ h, h < m.nHalfedgesCount →
      ((m.flipCore a1 b1).flipCore a1 b1).heFace (Equiv.swap a1 b1 h) =
        Equiv.swap (m.heFace a1) (m.heFace b1) (m.heFace h) ∧
      ((m.flipCore a1 b1).flipCore a1 b1).heVertex (Equiv.swap a1 b1 h) =
        m.heVertex h ∧
      ((m.flipCore a1 b1).flipCore a1 b1).heVertex
        (((m.flipCore a1 b1).flipCore a1 b1).heNext (Equiv.swap a1 b1 h)) =
        m.heVertex (m.heNext h)) := by
  -- bounds for the six halfedges of the two incident triangles
  have ha2lt : a2 < m.nHalfedgesCount := ha2 ▸ hV.next_lt a1 ha1lt
  have ha3lt : a3 < m.nHalfedgesCount := ha3 ▸ hV.next_lt a2 ha2lt
  have hb2lt : b2 < m.nHalfedgesCount := hb2 ▸ hV.next_lt b1 hb1lt
  have hb3lt : b3 < m.nHalfedgesCount := hb3 ▸ hV.next_lt b2 hb2lt
  -- basic vertex identities along the two triangles
  have hvab : m.heVertex b1 = m.heVertex a2 := by
    have h0 := hV.vertex_twin_next a1 ha1lt
    rwa [htw, ha2] at h0
  have hvba : m.heVertex a1 = m.heVertex b2 := by
    have h0 := hV.vertex_twin_next b1 hb1lt
    rwa [htw2, hb2] at h0
  -- pairwise distinctness of the six halfedges
  have dAB : a1 ≠ b1 := fun hq => heTwin_ne a1 (htw.trans hq.symm)
  have dA21 : a2 ≠ a1 := fun hq =>
    valid_next_ne_self m hV a1 ha1lt (ha2.trans hq)
  have dA32 : a3 ≠ a2 := fun hq =>
    valid_next_ne_self m hV a2 ha2lt (ha3.trans hq)
  have dA31 : a3 ≠ a1 := by
    intro hq
    rw [hq] at hA
    exact valid_next_ne_self m hV a1 ha1lt hA
  have dB21 : b2 ≠ b1 := fun hq =>
    valid_next_ne_self m hV b1 hb1lt (hb2.trans hq)
  have dB32 : b3 ≠ b2 := fun hq =>
    valid_next_ne_self m hV b2 hb2lt (hb3.trans hq)
  have dB31 : b3 ≠ b1 := by
    intro hq
    rw [hq] at hB
    exact valid_next_ne_self m hV b1 hb1lt hB
  have dA2B1 : a2 ≠ b1 := by
    intro hq
    have h1 := hV.vertex_twin_next a3 ha3lt
    rw [hA] at h1
    have h2 := hV.vertex_twin_next a2 ha2lt
    rw [ha3, hq, htw2] at h2
    exact hV.no_self_edge a3 ha3lt (h1.trans h2)
  have dB2A1 : b2 ≠ a1 := by
    intro hq
    have h1 := hV.vertex_twin_next b3 hb3lt
    rw [hB] at h1
    have h2 := hV.vertex_twin_next b2 hb2lt
    rw [hb3, hq, htw] at h2
    exact hV.no_self_edge b3 hb3lt (h1.trans h2)
  have dA2B2 : a2 ≠ b2 := by
    intro hq
    exact dAB (hV.next_inj a1 ha1lt b1 hb1lt (by rw [ha2, hb2, hq]))
  have dA2B3 : a2 ≠ b3 := by
    intro hq
    have h0 := hV.next_inj a1 ha1lt b2 hb2lt (by rw [ha2, hb3, hq])
    exact dB2A1 h0.symm
  have dA3B1 : a3 ≠ b1 := by
    intro hq
    rw [hq] at hA
    exact dB2A1 (hb2.symm.trans hA)
  have dA3B2 : a3 ≠ b2 := by
    intro hq
    exact dA2B1 (hV.next_inj a2 ha2lt b1 hb1lt (by rw [ha3, hb2, hq]))
  have dA3B3 : a3 ≠ b3 := by
    intro hq
    exact dA2B2 (hV.next_inj a2 ha2lt b2 hb2lt (by rw [ha3, hb3, hq]))
  have dA1B3 : a1 ≠ b3 := by
    intro hq
    exact dA2B1 (by rw [← ha2, hq, hB])
  -- the arrays of the once-flipped mesh
  have hm1next : (m.flipCore a1 b1).heNext =
      updF (updF (updF (updF (updF (updF m.heNext a1 b3) b3 a2) a2 a1) b1 a3) a3 b2) b2 b1 := by
    have h0 : (m.flipCore a1 b1).heNext =
        updF (updF (updF (updF (updF (updF m.heNext a1 (m.heNext (m.heNext b1)))
          (m.heNext (m.heNext b1)) (m.heNext a1)) (m.heNext a1) a1) b1
          (m.heNext (m.heNext a1))) (m.heNext (m.heNext a1)) (m.heNext b1))
          (m.heNext b1) b1 := rfl
    rw [h0, ha2, ha3, hb2, hb3]
  have hm1vert : (m.flipCore a1 b1).heVertex =
      updF (updF m.heVertex a1 (m.heVertex a3)) b1 (m.heVertex b3) := by
    have h0 : (m.flipCore a1 b1).heVertex =
        updF (updF m.heVertex a1 (m.heVertex (m.heNext (m.heNext a1)))) b1
          (m.heVertex (m.heNext (m.heNext b1))) := rfl
    rw [h0, ha2, ha3, hb2, hb3]
  have hm1face : (m.flipCore a1 b1).heFace =
      updF (updF m.heFace a3 (m.heFace b1)) b3 (m.heFace a1) := by
    have h0 : (m.flipCore a1 b1).heFace =
        updF (updF m.heFace (m.heNext (m.heNext a1)) (m.heFace b1))
          (m.heNext (m.heNext b1)) (m.heFace a1) := rfl
    rw [h0, ha2, ha3, hb2, hb3]
  -- reads of the once-flipped next array at the six halfedges
  have n1_a1 : (m.flipCore a1 b1).heNext a1 = b3 := by
    rw [hm1next, updF_ne _ _ _ _ dB2A1.symm, updF_ne _ _ _ _ dA31.symm,
      updF_ne _ _ _ _ dAB, updF_ne _ _ _ _ dA21.symm, updF_ne _ _ _ _ dA1B3,
      updF_same]
  have n1_b3 : (m.flipCore a1 b1).heNext b3 = a2 := by
    rw [hm1next, updF_ne _ _ _ _ dB32, updF_ne _ _ _ _ dA3B3.symm,
      updF_ne _ _ _ _ dB31, updF_ne _ _ _ _ dA2B3.symm, updF_same]
  have n1_a2 : (m.flipCore a1 b1).heNext a2 = a1 := by
    rw [hm1next, updF_ne _ _ _ _ dA2B2, updF_ne _ _ _ _ dA32.symm,
      updF_ne _ _ _ _ dA2B1, updF_same]
  have n1_b1 : (m.flipCore a1 b1).heNext b1 = a3 := by
    rw [hm1next, updF_ne _ _ _ _ dB21.symm, updF_ne _ _ _ _ dA3B1.symm,
      updF_same]
  have n1_a3 : (m.flipCore a1 b1).heNext a3 = b2 := by
    rw [hm1next, updF_ne _ _ _ _ dA3B2, updF_same]
  have n1_b2 : (m.flipCore a1 b1).heNext b2 = b1 := by
    rw [hm1next, updF_same]
  -- reads of the once-flipped vertex array
  have v1_a2 : (m.flipCore a1 b1).heVertex a2 = m.heVertex a2 := by
    rw [hm1vert, updF_ne _ _ _ _ dA2B1, updF_ne _ _ _ _ dA21]
  have v1_a3 : (m.flipCore a1 b1).heVertex a3 = m.heVertex a3 := by
    rw [hm1vert, updF_ne _ _ _ _ dA3B1, updF_ne _ _ _ _ dA31]
  have v1_b2 : (m.flipCore a1 b1).heVertex b2 = m.heVertex b2 := by
    rw [hm1vert, updF_ne _ _ _ _ dB21, updF_ne _ _ _ _ dB2A1]
  have v1_b3 : (m.flipCore a1 b1).heVertex b3 = m.heVertex b3 := by
    rw [hm1vert, updF_ne _ _ _ _ dB31, updF_ne _ _ _ _ dA1B3.symm]
  -- reads of the once-flipped face array
  have f1_a1 : (m.flipCore a1 b1).heFace a1 = m.heFace a1 := by
    rw [hm1face, updF_ne _ _ _ _ dA1B3, updF_ne _ _ _ _ dA31.symm]
  have f1_b1 : (m.flipCore a1 b1).heFace b1 = m.heFace b1 := by
    rw [hm1face, updF_ne _ _ _ _ dB31.symm, updF_ne _ _ _ _ dA3B1.symm]
  have f1_a3 : (m.flipCore a1 b1).heFace a3 = m.heFace b1 := by
    rw [hm1face, updF_ne _ _ _ _ dA3B3, updF_same]
  have f1_b3 : (m.flipCore a1 b1).heFace b3 = m.heFace a1 := by
    rw [hm1face, updF_same]
  -- the arrays of the twice-flipped mesh
  have hm2next : ((m.flipCore a1 b1).flipCore a1 b1).heNext =
      updF (updF (updF (updF (updF (updF (m.flipCore a1 b1).heNext a1 b2) b2 b3)
        b3 a1) b1 a2) a2 a3) a3 b1 := by
    have h0 : ((m.flipCore a1 b1).flipCore a1 b1).heNext =
        updF (updF (updF (updF (updF (updF (m.flipCore a1 b1).heNext a1
          ((m.flipCore a1 b1).heNext ((m.flipCore a1 b1).heNext b1)))
          ((m.flipCore a1 b1).heNext ((m.flipCore a1 b1).heNext b1))
          ((m.flipCore a1 b1).heNext a1))
          ((m.flipCore a1 b1).heNext a1) a1) b1
          ((m.flipCore a1 b1).heNext ((m.flipCore a1 b1).heNext a1)))
          ((m.flipCore a1 b1).heNext ((m.flipCore a1 b1).heNext a1))
          ((m.flipCore a1 b1).heNext b1))
          ((m.flipCore a1 b1).heNext b1) b1 := rfl
    rw [h0, n1_a1, n1_b3, n1_b1, n1_a3]
  have hm2vert : ((m.flipCore a1 b1).flipCore a1 b1).heVertex =
      updF (updF (m.flipCore a1 b1).heVertex a1 (m.heVertex a2)) b1 (m.heVertex b2) := by
    have h0 : ((m.flipCore a1 b1).flipCore a1 b1).heVertex =
        updF (updF (m.flipCore a1 b1).heVertex a1
          ((m.flipCore a1 b1).heVertex ((m.flipCore a1 b1).heNext
            ((m.flipCore a1 b1).heNext a1)))) b1
          ((m.flipCore a1 b1).heVertex ((m.flipCore a1 b1).heNext
            ((m.flipCore a1 b1).heNext b1))) := rfl
    rw [h0, n1_a1, n1_b3, n1_b1, n1_a3, v1_a2, v1_b2]
  have hm2face : ((m.flipCore a1 b1).flipCore a1 b1).heFace =
      updF (updF (m.flipCore a1 b1).heFace a2 (m.heFace b1)) b2 (m.heFace a1) := by
    have h0 : ((m.flipCore a1 b1).flipCore a1 b1).heFace =
        updF (updF (m.flipCore a1 b1).heFace ((m.flipCore a1 b1).heNext
          ((m.flipCore a1 b1).heNext a1)) ((m.flipCore a1 b1).heFace b1))
          ((m.flipCore a1 b1).heNext ((m.flipCore a1 b1).heNext b1))
          ((m.flipCore a1 b1).heFace a1) := rfl
    rw [h0, n1_a1, n1_b3, n1_b1, n1_a3, f1_a1, f1_b1]
  -- reads of the twice-flipped next array
  have n2_a1 : ((m.flipCore a1 b1).flipCore a1 b1).heNext a1 = b2 := by
    rw [hm2next, updF_ne _ _ _ _ dA31.symm, updF_ne _ _ _ _ dA21.symm,
      updF_ne _ _ _ _ dAB, updF_ne _ _ _ _ dA1B3, updF_ne _ _ _ _ dB2A1.symm,
      updF_same]
  have n2_a2 : ((m.flipCore a1 b1).flipCore a1 b1).heNext a2 = a3 := by
    rw [hm2next, updF_ne _ _ _ _ dA32.symm, updF_same]
  have n2_a3 : ((m.flipCore a1 b1).flipCore a1 b1).heNext a3 = b1 := by
    rw [hm2next, updF_same]
  have n2_b1 : ((m.flipCore a1 b1).flipCore a1 b1).heNext b1 = a2 := by
    rw [hm2next, updF_ne _ _ _ _ dA3B1.symm, updF_ne _ _ _ _ dA2B1.symm,
      updF_same]
  have n2_b2 : ((m.flipCore a1 b1).flipCore a1 b1).heNext b2 = b3 := by
    rw [hm2next, updF_ne _ _ _ _ dA3B2.symm, updF_ne _ _ _ _ dA2B2.symm,
      updF_ne _ _ _ _ dB21, updF_ne _ _ _ _ dB32.symm, updF_same]
  have n2_b3 : ((m.flipCore a1 b1).flipCore a1 b1).heNext b3 = a1 := by
    rw [hm2next, updF_ne _ _ _ _ dA3B3.symm, updF_ne _ _ _ _ dA2B3.symm,
      updF_ne _ _ _ _ dB31, updF_same]
  -- reads of the twice-flipped vertex array
  have v2_a1 : ((m.flipCore a1 b1).flipCore a1 b1).heVertex a1 = m.heVertex a2 := by
    rw [hm2vert, updF_ne _ _ _ _ dAB, updF_same]
  have v2_b1 : ((m.flipCore a1 b1).flipCore a1 b1).heVertex b1 = m.heVertex b2 := by
    rw [hm2vert, updF_same]
  have v2_a2 : ((m.flipCore a1 b1).flipCore a1 b1).heVertex a2 = m.heVertex a2 := by
    rw [hm2vert, updF_ne _ _ _ _ dA2B1, updF_ne _ _ _ _ dA21, v1_a2]
  have v2_a3 : ((m.flipCore a1 b1).flipCore a1 b1).heVertex a3 = m.heVertex a3 := by
    rw [hm2vert, updF_ne _ _ _ _ dA3B1, updF_ne _ _ _ _ dA31, v1_a3]
  have v2_b2 : ((m.flipCore a1 b1).flipCore a1 b1).heVertex b2 = m.heVertex b2 := by
    rw [hm2vert, updF_ne _ _ _ _ dB21, updF_ne _ _ _ _ dB2A1, v1_b2]
  have v2_b3 : ((m.flipCore a1 b1).flipCore a1 b1).heVertex b3 = m.heVertex b3 := by
    rw [hm2vert, updF_ne _ _ _ _ dB31, updF_ne _ _ _ _ dA1B3.symm, v1_b3]
  -- reads of the twice-flipped face array
  have f2_a1 : ((m.flipCore a1 b1).flipCore a1 b1).heFace a1 = m.heFace a1 := by
    rw [hm2face, updF_ne _ _ _ _ dB2A1.symm, updF_ne _ _ _ _ dA21.symm, f1_a1]
  have f2_b1 : ((m.flipCore a1 b1).flipCore a1 b1).heFace b1 = m.heFace b1 := by
    rw [hm2face, updF_ne _ _ _ _ dB21.symm, updF_ne _ _ _ _ dA2B1.symm, f1_b1]
  have f2_a2 : ((m.flipCore a1 b1).flipCore a1 b1).heFace a2 = m.heFace b1 := by
    rw [hm2face, updF_ne _ _ _ _ dA2B2, updF_same]
  have f2_b2 : ((m.flipCore a1 b1).flipCore a1 b1).heFace b2 = m.heFace a1 := by
    rw [hm2face, updF_same]
  have f2_a3 : ((m.flipCore a1 b1).flipCore a1 b1).heFace a3 = m.heFace b1 := by
    rw [hm2face, updF_ne _ _ _ _ dA3B2, updF_ne _ _ _ _ dA32, f1_a3]
  have f2_b3 : ((m.flipCore a1 b1).flipCore a1 b1).heFace b3 = m.heFace a1 := by
    rw [hm2face, updF_ne _ _ _ _ dB32, updF_ne _ _ _ _ dA2B3.symm, f1_b3]
  -- faces of the six halfedges in the original mesh
  have hfa2 : m.heFace a2 = m.heFace a1 := by
    have h0 := hV.face_next a1 ha1lt
    rwa [ha2] at h0
  have hfa3 : m.heFace a3 = m.heFace a1 := by
    have h0 := hV.face_next a2 ha2lt
    rw [ha3] at h0
    exact h0.trans hfa2
  have hfb2 : m.heFace b2 = m.heFace b1 := by
    have h0 := hV.face_next b1 hb1lt
    rwa [hb2] at h0
  have hfb3 : m.heFace b3 = m.heFace b1 := by
    have h0 := hV.face_next b2 hb2lt
    rw [hb3] at h0
    exact h0.trans hfb2
  refine ⟨⟨n1_a1, n1_b3, n1_a2, n1_b1, n1_a3, n1_b2, f1_a1, f1_b1⟩, ?_⟩
  intro h hh
  by_cases hc1 : h = a1
  · subst hc1
    refine ⟨?_, ?_, ?_⟩
    · rw [Equiv.swap_apply_left, f2_b1, Equiv.swap_apply_left]
    · rw [Equiv.swap_apply_left, v2_b1, ← hvba]
    · rw [Equiv.swap_apply_left, n2_b1, v2_a2, ha2]
  by_cases hc2 : h = b1
  · subst hc2
    refine ⟨?_, ?_, ?_⟩
    · rw [Equiv.swap_apply_right, f2_a1, Equiv.swap_apply_right]
    · rw [Equiv.swap_apply_right, v2_a1, ← hvab]
    · rw [Equiv.swap_apply_right, n2_a1, v2_b2, hb2]
  by_cases hc3 : h = a2
  · subst hc3
    have hsw : Equiv.swap a1 b1 h = h := Equiv.swap_apply_of_ne_of_ne dA21 dA2B1
    refine ⟨?_, ?_, ?_⟩
    · rw [hsw, f2_a2, hfa2, Equiv.swap_apply_left]
    · rw [hsw, v2_a2]
    · rw [hsw, n2_a2, v2_a3, ha3]
  by_cases hc4 : h = a3
  · subst hc4
    have hsw : Equiv.swap a1 b1 h = h := Equiv.swap_apply_of_ne_of_ne dA31 dA3B1
    refine ⟨?_, ?_, ?_⟩
    · rw [hsw, f2_a3, hfa3, Equiv.swap_apply_left]
    · rw [hsw, v2_a3]
    · rw [hsw, n2_a3, v2_b1, hA, hvba]
  by_cases hc5 : h = b2
  · subst hc5
    have hsw : Equiv.swap a1 b1 h = h := Equiv.swap_apply_of_ne_of_ne dB2A1 dB21
    refine ⟨?_, ?_, ?_⟩
    · rw [hsw, f2_b2, hfb2, Equiv.swap_apply_right]
    · rw [hsw, v2_b2]
    · rw [hsw, n2_b2, v2_b3, hb3]
  by_cases hc6 : h = b3
  · subst hc6
    have hsw : Equiv.swap a1 b1 h = h :=
      Equiv.swap_apply_of_ne_of_ne dA1B3.symm dB31
    refine ⟨?_, ?_, ?_⟩
    · rw [hsw, f2_b3, hfb3, Equiv.swap_apply_right]
    · rw [hsw, v2_b3]
    · rw [hsw, n2_b3, v2_a1, hB, hvab]
  -- halfedges outside the two flipped triangles are untouched
  have hsw : Equiv.swap a1 b1 h = h := Equiv.swap_apply_of_ne_of_ne hc1 hc2
  have hn2h : ((m.flipCore a1 b1).flipCore a1 b1).heNext h = m.heNext h := by
    rw [hm2next, updF_ne _ _ _ _ hc4, updF_ne _ _ _ _ hc3, updF_ne _ _ _ _ hc2,
      updF_ne _ _ _ _ hc6, updF_ne _ _ _ _ hc5, updF_ne _ _ _ _ hc1, hm1next,
      updF_ne _ _ _ _ hc5, updF_ne _ _ _ _ hc4, updF_ne _ _ _ _ hc2,
      updF_ne _ _ _ _ hc3, updF_ne _ _ _ _ hc6, updF_ne _ _ _ _ hc1]
  have hv2h : ((m.flipCore a1 b1).flipCore a1 b1).heVertex h = m.heVertex h := by
    rw [hm2vert, updF_ne _ _ _ _ hc2, updF_ne _ _ _ _ hc1, hm1vert,
      updF_ne _ _ _ _ hc2, updF_ne _ _ _ _ hc1]
  have hnxa1 : m.heNext h ≠ a1 := fun hX =>
    hc4 (hV.next_inj h hh a3 ha3lt (hX.trans hA.symm))
  have hnxb1 : m.heNext h ≠ b1 := fun hX =>
    hc6 (hV.next_inj h hh b3 hb3lt (hX.trans hB.symm))
  have hv2nx : ((m.flipCore a1 b1).flipCore a1 b1).heVertex (m.heNext h) =
      m.heVertex (m.heNext h) := by
    rw [hm2vert, updF_ne _ _ _ _ hnxb1, updF_ne _ _ _ _ hnxa1, hm1vert,
      updF_ne _ _ _ _ hnxb1, updF_ne _ _ _ _ hnxa1]
  have hf2h : ((m.flipCore a1 b1).flipCore a1 b1).heFace h = m.heFace h := by
    rw [hm2face, updF_ne _ _ _ _ hc5, updF_ne _ _ _ _ hc3, hm1face,
      updF_ne _ _ _ _ hc6, updF_ne _ _ _ _ hc4]
  have hffa : m.heFace h ≠ m.heFace a1 :=
    face_ne_of_outside_triple m hV a1 a2 a3 h ha1lt ha2lt ha3lt hh ha2 ha3 hA
      hc1 hc3 hc4
  have hffb : m.heFace h ≠ m.heFace b1 :=
    face_ne_of_outside_triple m hV b1 b2 b3 h hb1lt hb2lt hb3lt hh hb2 hb3 hB
      hc2 hc5 hc6
  refine ⟨?_, ?_, ?_⟩
  · rw [hsw, hf2h, Equiv.swap_apply_of_ne_of_ne hffa hffb]
  · rw [hsw, hv2h]
  · rw [hsw, hn2h, hv2nx]

/-- C1: for every valid mesh and edge, flip either returns false leaving the
mesh completely unchanged — exactly when the edge is a boundary edge or either
incident face is not a triangle — or it succeeds, leaves every element count
unchanged, and flipping the same edge a second time also succeeds and restores
a mesh equivalent to the original: the element counts are restored and, up to
the twin-respecting renaming that swaps the two halfedges of the edge and
the renaming that swaps the two incident faces, every halfedge carries the same
face, the same tail vertex and the same head vertex as in the original
mesh. -/
theorem flip_contract (m : Mesh) (e : Nat) (hV : m.Valid) (he : e < m.nEdgesCount) :
    ((m.flip e).1 = false ↔
      (m.edgeIsBoundary e = true ∨ m.isTriangleAt (eHalfedge e) = false ∨
        m.isTriangleAt (heTwin (eHalfedge e)) = false)) ∧
    ((m.flip e).1 = false → (m.flip e).2 = m) ∧
    ((m.flip e).1 = true →
      ((m.flip e).2.nHalfedgesCount = m.nHalfedgesCount ∧
       (m.flip e).2.nVerticesCount = m.nVerticesCount ∧
       (m.flip e).2.nEdgesCount = m.nEdgesCount ∧
       (m.flip e).2.nFacesCount = m.nFacesCount ∧
       (m.flip e).2.nBoundaryLoopsCount = m.nBoundaryLoopsCount) ∧
      (((m.flip e).2).flip e).1 = true ∧
      ((((m.flip e).2).flip e).2.nHalfedgesCount = m.nHalfedgesCount ∧
       (((m.flip e).2).flip e).2.nVerticesCount = m.nVerticesCount ∧
       (((m.flip e).2).flip e).2.nEdgesCount = m.nEdgesCount ∧
       (((m.flip e).2).flip e).2.nFacesCount = m.nFacesCount ∧
       (((m.flip e).2).flip e).2.nBoundaryLoopsCount = m.nBoundaryLoopsCount) ∧
      (∀ h, heTwin (Equiv.swap (eHalfedge e) (heTwin (eHalfedge e)) h) =
        Equiv.swap (eHalfedge e) (heTwin (eHalfedge e)) (heTwin h)) ∧
      (∀ h, h < m.nHalfedgesCount →
        (((m.flip e).2).flip e).2.heFace
            (Equiv.swap (eHalfedge e) (heTwin (eHalfedge e)) h) =
          Equiv.swap (m.heFace (eHalfedge e)) (m.heFace (heTwin (eHalfedge e)))
            (m.heFace h) ∧
        (((m.flip e).2).flip e).2.heVertex
            (Equiv.swap (eHalfedge e) (heTwin (eHalfedge e)) h) =
          m.heVertex h ∧
        (((m.flip e).2).flip e).2.heVertex
            ((((m.flip e).2).flip e).2.heNext
              (Equiv.swap (eHalfedge e) (heTwin (eHalfedge e)) h)) =
          m.heVertex (m.heNext h))) := by
  by_cases hb : m.edgeIsBoundary e = true
  · refine ⟨?_, ?_, ?_⟩
    · simp [Mesh.flip, hb]
    · intro _
      simp [Mesh.flip, hb]
    · intro hok
      simp [Mesh.flip, hb] at hok
  have hb2 : m.edgeIsBoundary e = false := by simpa using hb
  by_cases ht1 : m.isTriangleAt (eHalfedge e) = true
  case neg =>
    have ht1f : m.isTriangleAt (eHalfedge e) = false := by simpa using ht1
    refine ⟨?_, ?_, ?_⟩
    · simp [Mesh.flip, hb2, ht1f]
    · intro _
      simp [Mesh.flip, hb2, ht1f]
    · intro hok
      simp [Mesh.flip, hb2, ht1f] at hok
  by_cases ht2 : m.isTriangleAt (heTwin (eHalfedge e)) = true
  case neg =>
    have ht2f : m.isTriangleAt (heTwin (eHalfedge e)) = false := by simpa using ht2
    refine ⟨?_, ?_, ?_⟩
    · simp [Mesh.flip, hb2, ht2f]
    · intro _
      simp [Mesh.flip, hb2, ht2f]
    · intro hok
      simp [Mesh.flip, hb2, ht2f] at hok
  -- the successful branch
  have hflip : m.flip e =
      (true, m.flipCore (eHalfedge e) (heTwin (eHalfedge e))) := by
    simp [Mesh.flip, hb2, ht1, ht2]
  have ha1lt : eHalfedge e < m.nHalfedgesCount := by
    rw [hV.he_two_edges]
    simp only [eHalfedge]
    omega
  have hb1lt : heTwin (eHalfedge e) < m.nHalfedgesCount := by
    rw [heTwin_eHalfedge, hV.he_two_edges]
    simp only [eHalfedge]
    omega
  have hA : m.heNext (m.heNext (m.heNext (eHalfedge e))) = eHalfedge e :=
    of_decide_eq_true ht1
  have hB : m.heNext (m.heNext (m.heNext (heTwin (eHalfedge e)))) =
      heTwin (eHalfedge e) :=
    of_decide_eq_true ht2
  have hrt := flipCore_roundTrip m hV (eHalfedge e) (heTwin (eHalfedge e))
    (m.heNext (eHalfedge e)) (m.heNext (m.heNext (eHalfedge e)))
    (m.heNext (heTwin (eHalfedge e))) (m.heNext (m.heNext (heTwin (eHalfedge e))))
    ha1lt hb1lt rfl (heTwin_heTwin (eHalfedge e)) rfl rfl hA rfl rfl hB
  have hsb : (m.flipCore (eHalfedge e) (heTwin (eHalfedge e))).edgeIsBoundary e =
      false := by
    unfold Mesh.edgeIsBoundary Mesh.heIsInterior Mesh.faceIsBoundaryLoop at hb2 ⊢
    rw [hrt.1.2.2.2.2.2.2.1, hrt.1.2.2.2.2.2.2.2]
    exact hb2
  have hst1 : (m.flipCore (eHalfedge e) (heTwin (eHalfedge e))).isTriangleAt
      (eHalfedge e) = true := by
    unfold Mesh.isTriangleAt
    rw [hrt.1.1, hrt.1.2.1, hrt.1.2.2.1]
    simp
  have hst2 : (m.flipCore (eHalfedge e) (heTwin (eHalfedge e))).isTriangleAt
      (heTwin (eHalfedge e)) = true := by
    unfold Mesh.isTriangleAt
    rw [hrt.1.2.2.2.1, hrt.1.2.2.2.2.1, hrt.1.2.2.2.2.2.1]
    simp
  have hflip2 : (m.flipCore (eHalfedge e) (heTwin (eHalfedge e))).flip e =
      (true, (m.flipCore (eHalfedge e) (heTwin (eHalfedge e))).flipCore
        (eHalfedge e) (heTwin (eHalfedge e))) := by
    simp [Mesh.flip, hsb, hst1, hst2]
  refine ⟨?_, ?_, ?_⟩
  · rw [hflip]
    simp [hb2, ht1, ht2]
  · intro hok
    rw [hflip] at hok
    simp at hok
  · intro _
    rw [hflip, hflip2]
    refine ⟨⟨rfl, rfl, rfl, rfl, rfl⟩, rfl, ⟨rfl, rfl, rfl, rfl, rfl⟩, ?_, ?_⟩
    · intro h
      exact heTwin_swap (eHalfedge e) h
    · intro h hh
      exact hrt.2 h hh

/-- Witness for C1 at the tetrahedron and its edge 0: the flip succeeds and
flipping again also succeeds. -/
theorem flip_contract_witness :
    (tetraMesh.flip 0).1 = true ∧ ((tetraMesh.flip 0).2.flip 0).1 = true := by
  have hV : tetraMesh.Valid :=
    ⟨by decide, by decide, by decide, by decide, by decide, by decide, by decide⟩
  have h := flip_contract tetraMesh 0 hV (by decide)
  have hok : (tetraMesh.flip 0).1 = true := by decide
  exact ⟨hok, (h.2.2 hok).2.1⟩

end GeometryCentral
